import Mathlib

/-!
Verification development for the kaa.base concurrency core
(`src/coroutine.py`, `src/thread.py`).

The Python source is shallowly embedded: each Python routine that a claim
depends on is translated into an executable Lean definition over explicit
state, and the claims are settled as theorems about those definitions.
Generators (user step functions) are modelled by their observable traces:
a list of the successive outcomes that `_process` obtains from the
generator, one entry per advance.
-/

namespace KaaBase

/-- State of an `InProgress` promise: pending, finished with an optional
value (a generator that falls off the end finishes with `None`), or failed
with an error. -/
inductive PromiseState where
  | pending
  | finishedWith (v : Option Nat)
  | failedWith (e : Nat)
  | failedCancelled
deriving DecidableEq, Repr

/-- One advance of the generator, as observed by `CoroutineInProgress._step`
via `_process`: the generator either yields `NotFinished`, yields an
`InProgress` (recording whether that promise is already finished), yields a
plain value (the coroutine result), raises, or is exhausted (the trace list
ends, which `_process` surfaces as `StopIteration`). -/
inductive Advance where
  | yieldNotFinished
  | yieldInProgress (finished : Bool) (v : Nat)
  | yieldValue (v : Nat)
  | raiseError (e : Nat)
deriving DecidableEq, Repr

/-- How one call of `CoroutineInProgress._step` ends: `timerContinue`
models `return True` (the step timer stays armed and the next advance
happens on a later main-loop iteration); `blockedOnPromise` models
`return False` after `connect_both` on a pending prerequisite;
`finishedResult` models `self.finish(result)`; `raisedResult` models
`self.throw(...)`. -/
inductive StepOutcome where
  | timerContinue
  | blockedOnPromise (v : Nat)
  | finishedResult (v : Option Nat)
  | raisedResult (e : Nat)
deriving DecidableEq, Repr

/-- Embedding of the `while True` loop of `CoroutineInProgress._step`
(src/coroutine.py lines 259-307) on a generator trace.  Returns the step
outcome together with the number of `_process` advances performed by this
single `_step` call.  `yieldNotFinished` returns `True` at once; a yielded
unfinished `InProgress` connects and returns `False`; a yielded finished
`InProgress` loops and advances again inline; a plain value (or
exhaustion, the `[]` case, i.e. `StopIteration`) finishes the task; an
exception is rethrown into the task promise. -/
def coStepRun : List Advance → StepOutcome × Nat
  | [] => (StepOutcome.finishedResult none, 1)
  | Advance.yieldNotFinished :: _ => (StepOutcome.timerContinue, 1)
  | Advance.yieldValue v :: _ => (StepOutcome.finishedResult (some v), 1)
  | Advance.raiseError e :: _ => (StepOutcome.raisedResult e, 1)
  | Advance.yieldInProgress false v :: _ => (StepOutcome.blockedOnPromise v, 1)
  | Advance.yieldInProgress true _ :: rest =>
      let r := coStepRun rest
      (r.1, r.2 + 1)

/-- An advance whose directive is `Await(p)` with `p` already terminal:
the generator yielded an already-finished `InProgress`. -/
def terminalAwait : Advance → Bool
  | Advance.yieldInProgress true _ => true
  | _ => false

/-- Outcome of a `_step` call as decided by the first directive that halts
the inline loop (the head of the trace once leading terminal awaits are
dropped). -/
def haltOutcome : List Advance → StepOutcome
  | [] => StepOutcome.finishedResult none
  | Advance.yieldNotFinished :: _ => StepOutcome.timerContinue
  | Advance.yieldValue v :: _ => StepOutcome.finishedResult (some v)
  | Advance.raiseError e :: _ => StepOutcome.raisedResult e
  | Advance.yieldInProgress _ v :: _ => StepOutcome.blockedOnPromise v

theorem coStepRun_terminalAwait_cons (v : Nat) (rest : List Advance) :
    coStepRun (Advance.yieldInProgress true v :: rest) =
      ((coStepRun rest).1, (coStepRun rest).2 + 1) := rfl

theorem haltOutcome_of_not_terminalAwait (a : Advance) (rest : List Advance)
    (h : terminalAwait a = false) :
    haltOutcome (a :: rest) = (coStepRun (a :: rest)).1 := by
  cases a with
  | yieldNotFinished => rfl
  | yieldValue v => rfl
  | raiseError e => rfl
  | yieldInProgress f v =>
      cases f with
      | false => rfl
      | true => simp [terminalAwait] at h

/-- C1 (amended): one `_step` call performs exactly one advance for each
leading already-terminal `Await` directive plus one final advance; the
inline loop halts at the first `ContinueNow` (returning `True` so the
timer re-enters on the next main-loop iteration), pending `Await`, `Done`,
or `Raised` directive, and the outcome of the call is decided by that
halting directive. -/
theorem c1_step_inline_loop (g : List Advance) :
    coStepRun g =
      (haltOutcome (g.dropWhile terminalAwait),
       (g.takeWhile terminalAwait).length + 1) := by
  induction g with
  | nil => rfl
  | cons a rest ih =>
      cases a with
      | yieldNotFinished => rfl
      | yieldValue v => rfl
      | raiseError e => rfl
      | yieldInProgress f v =>
          cases f with
          | false => rfl
          | true =>
              rw [coStepRun_terminalAwait_cons, ih]
              simp [List.dropWhile, List.takeWhile, terminalAwait]

/-- C1 counterexample: on the trace that yields `ContinueNow` once and then
returns the value `42`, a single `_step` call performs exactly one advance
and returns `True` (control goes back to the main loop and the timer), so
the engine does not advance again inline after a `ContinueNow` directive
and the task is not finished within that call, contrary to the claim. -/
theorem c1_counterexample :
    coStepRun [Advance.yieldNotFinished, Advance.yieldValue 42] =
        (StepOutcome.timerContinue, 1) ∧
      ¬ (coStepRun [Advance.yieldNotFinished, Advance.yieldValue 42]).2 = 2 ∧
      ¬ (coStepRun [Advance.yieldNotFinished, Advance.yieldValue 42]).1 =
          StepOutcome.finishedResult (some 42) := by
  refine ⟨rfl, ?_, ?_⟩ <;> decide

/-- Kind of the prerequisite `self._prerequisite_ip` of a task: absent, a
plain `InProgress`, or itself a `CoroutineInProgress` (only the latter is
disconnected and stopped by `_stop`). -/
inductive PrereqKind where
  | noPrereq
  | plainInProgress
  | coroutinePrereq
deriving DecidableEq, Repr

/-- Observable state of a `CoroutineInProgress` task for the cancellation
path: its timer (`self._timer`, present and/or active), membership in the
process-wide `_active_coroutines` set, the prerequisite kind, the number of
registered exception observers (`len(self.exception)`), the promise state,
whether the generator is still held (`self._coroutine is not None`), and
which cleanup effects have been performed (generator `close()` called,
prerequisite coroutine disconnected and stopped). -/
structure CoTask where
  timerPresent : Bool
  timerActive : Bool
  live : Bool
  prereq : PrereqKind
  excObservers : Nat
  promise : PromiseState
  hasCoroutine : Bool
  driverClosed : Bool
  prereqStopped : Bool
deriving DecidableEq, Repr

/-- Embedding of `CoroutineInProgress._stop` (src/coroutine.py lines
334-382): stop the timer if present and active; leave the
`_active_coroutines` set; if the prerequisite is a coroutine, disconnect
from it and stop it; unless `finished`, throw `GeneratorExit` into the
task promise, but only when `len(self.exception)` is non-zero; close the
generator; finally null out the timer, the generator, and the
prerequisite. -/
def coStopImpl (finished : Bool) (s : CoTask) : CoTask :=
  let s1 := if s.timerPresent ∧ s.timerActive then { s with timerActive := false } else s
  let s2 := { s1 with live := false }
  let s3 := if s2.prereq = PrereqKind.coroutinePrereq
    then { s2 with prereqStopped := true } else s2
  let s4 := if ¬finished ∧ 0 < s3.excObservers
    then { s3 with promise := PromiseState.failedCancelled } else s3
  let s5 := { s4 with driverClosed := true }
  { s5 with
      timerPresent := false, timerActive := false,
      hasCoroutine := false, prereq := PrereqKind.noPrereq }

/-- Embedding of `CoroutineInProgress.stop` (src/coroutine.py lines
329-331): run `_stop()` only while the generator is still held. -/
def coStop (s : CoTask) : CoTask :=
  if s.hasCoroutine then coStopImpl false s else s

/-- Closed form of `coStopImpl`: all fields of the post-state written out
directly, used to reason about the cancellation path. -/
def coStopClosed (finished : Bool) (s : CoTask) : CoTask :=
  { timerPresent := false, timerActive := false, live := false,
    prereq := PrereqKind.noPrereq,
    excObservers := s.excObservers,
    promise := if ¬finished ∧ 0 < s.excObservers
      then PromiseState.failedCancelled else s.promise,
    hasCoroutine := false, driverClosed := true,
    prereqStopped := if s.prereq = PrereqKind.coroutinePrereq
      then true else s.prereqStopped }

theorem coStopImpl_eq_closed (finished : Bool) (s : CoTask) :
    coStopImpl finished s = coStopClosed finished s := by
  unfold coStopImpl coStopClosed
  by_cases h1 : s.timerPresent ∧ s.timerActive <;>
    by_cases h2 : s.prereq = PrereqKind.coroutinePrereq <;>
      simp [h1, h2] <;> split <;> simp_all

/-- C2 (amended): for a non-terminal task, one `cancel()`/`stop()` call
cancels and releases the timer, closes the driver, stops a coroutine
prerequisite, and releases the generator so no further advance can happen
and further calls are no-ops; the promise transitions to
Failed(Cancelled) exactly when at least one exception observer is
registered, and is left pending (nobody is notified) when there is none. -/
theorem c2_stop_cancels (s : CoTask)
    (hco : s.hasCoroutine = true) (hp : s.promise = PromiseState.pending) :
    (coStop s).timerActive = false ∧
    (coStop s).timerPresent = false ∧
    (coStop s).driverClosed = true ∧
    (coStop s).hasCoroutine = false ∧
    (s.prereq = PrereqKind.coroutinePrereq → (coStop s).prereqStopped = true) ∧
    (0 < s.excObservers → (coStop s).promise = PromiseState.failedCancelled) ∧
    (s.excObservers = 0 → (coStop s).promise = PromiseState.pending) ∧
    coStop (coStop s) = coStop s := by
  have he : coStop s = coStopClosed false s := by
    simp [coStop, hco, coStopImpl_eq_closed]
  rw [he]
  refine ⟨rfl, rfl, rfl, rfl, ?_, ?_, ?_, ?_⟩
  · intro h; simp [coStopClosed, h]
  · intro h; simp [coStopClosed, h]
  · intro h; simp [coStopClosed, h, hp]
  · simp [coStop, coStopClosed]

/-- Witness for the amended C2 theorem at a concrete non-terminal task
with one exception observer. -/
theorem c2_stop_cancels_witness :
    (coStop { timerPresent := true, timerActive := true, live := true,
              prereq := PrereqKind.coroutinePrereq, excObservers := 1,
              promise := PromiseState.pending, hasCoroutine := true,
              driverClosed := false, prereqStopped := false }).promise =
      PromiseState.failedCancelled :=
  (c2_stop_cancels
    { timerPresent := true, timerActive := true, live := true,
      prereq := PrereqKind.coroutinePrereq, excObservers := 1,
      promise := PromiseState.pending, hasCoroutine := true,
      driverClosed := false, prereqStopped := false }
    rfl rfl).2.2.2.2.2.1 (by decide)

/-- C2 counterexample: on a non-terminal task with no exception observers
(for example one whose caller only attached a result observer), a `stop()`
call leaves the promise pending: it is not transitioned to
Failed(Cancelled), so not every observer of the task hears about the
abort, contrary to the claim. -/
theorem c2_counterexample :
    (coStop { timerPresent := true, timerActive := true, live := true,
              prereq := PrereqKind.noPrereq, excObservers := 0,
              promise := PromiseState.pending, hasCoroutine := true,
              driverClosed := false, prereqStopped := false }).promise =
        PromiseState.pending ∧
      ¬ (coStop { timerPresent := true, timerActive := true, live := true,
                  prereq := PrereqKind.noPrereq, excObservers := 0,
                  promise := PromiseState.pending, hasCoroutine := true,
                  driverClosed := false, prereqStopped := false }).promise =
          PromiseState.failedCancelled := by
  refine ⟨?_, ?_⟩ <;> decide

/-- Coroutine policy constants (src/coroutine.py lines 72-75). -/
inductive Policy where
  | nonePolicy
  | synchronizedPolicy
  | singletonPolicy
  | passLastPolicy
deriving DecidableEq, Repr

/-- Embedding of the `last`-list update performed by `wrap`
(src/coroutine.py lines 140-163): the new task `obj` is appended to the
per-key `last` list exactly when the policy is `POLICY_SINGLETON` or
`POLICY_PASS_LAST` and the task is not already finished; otherwise the
list is unchanged. -/
def wrapLastAfter (policy : Policy) (objFinished : Bool) (last : List Nat)
    (obj : Nat) : List Nat :=
  if (policy = Policy.singletonPolicy ∨ policy = Policy.passLastPolicy) ∧
      objFinished = false
  then last ++ [obj] else last

/-- Embedding of the termination handler `cb` attached by `wrap` via
`connect_both` (src/coroutine.py lines 153-161): when the task becomes
terminal, `last.remove(obj)` removes its entry (the first occurrence)
from the `last` list. -/
def lastRemoveCb (last : List Nat) (obj : Nat) : List Nat :=
  last.erase obj

/-- Embedding of `wrap`: whether the termination handler is attached at
all, which happens under the same condition as the append. -/
def wrapHandlerAttached (policy : Policy) (objFinished : Bool) : Bool :=
  decide ((policy = Policy.singletonPolicy ∨ policy = Policy.passLastPolicy) ∧
    objFinished = false)

/-- C3 (amended): under the Singleton and PassLast policies (not
Synchronized), every task that is not already terminal when `wrap`
finalizes it is appended to the key's `last` list at creation, the
termination handler is attached, and firing that handler when the task
becomes terminal (success, failure, or cancel alike, since it is
connected to both signals) removes exactly that entry again. -/
theorem c3_last_lifecycle (policy : Policy) (last : List Nat) (obj : Nat)
    (hpol : policy = Policy.singletonPolicy ∨ policy = Policy.passLastPolicy)
    (hfresh : obj ∉ last) :
    wrapLastAfter policy false last obj = last ++ [obj] ∧
    wrapHandlerAttached policy false = true ∧
    lastRemoveCb (wrapLastAfter policy false last obj) obj = last := by
  have hc : (policy = Policy.singletonPolicy ∨ policy = Policy.passLastPolicy) ∧
      (false : Bool) = false := ⟨hpol, rfl⟩
  refine ⟨if_pos hc, ?_, ?_⟩
  · simp [wrapHandlerAttached, hpol]
  · unfold wrapLastAfter lastRemoveCb
    rw [if_pos hc, List.erase_append_right _ hfresh]
    simp

/-- Witness for the amended C3 theorem: a fresh unfinished task under
PassLast is appended to a concrete `last` list and removed again by the
termination handler. -/
theorem c3_last_lifecycle_witness :
    wrapLastAfter Policy.passLastPolicy false [3] 7 = [3, 7] ∧
      wrapHandlerAttached Policy.passLastPolicy false = true ∧
      lastRemoveCb (wrapLastAfter Policy.passLastPolicy false [3] 7) 7 = [3] :=
  c3_last_lifecycle Policy.passLastPolicy [3] 7 (Or.inr rfl) (by decide)

/-- C3 counterexample: under the Synchronized policy, `wrap` does not
append the new unfinished task to the key's `last` list (the list stays
empty), contrary to the claim that Synchronized tasks are tracked there. -/
theorem c3_counterexample :
    wrapLastAfter Policy.synchronizedPolicy false [] 7 = [] ∧
      ¬ wrapLastAfter Policy.synchronizedPolicy false [] 7 = [7] := by
  refine ⟨?_, ?_⟩ <;> decide

/-- Result of one invocation of a Singleton-decorated coroutine, as
performed by `newfunc` (src/coroutine.py lines 124-138): the handle
returned to the caller, whether a new `CoroutineInProgress` was created,
whether the decorated generator function was entered, and the `last` list
afterwards. -/
structure SingletonResult where
  handle : Nat
  createdNew : Bool
  entered : Bool
  lastAfter : List Nat
deriving DecidableEq, Repr

/-- Embedding of `newfunc` under `POLICY_SINGLETON` (src/coroutine.py
lines 124-138 and 185-192): if the key's `last` list is non-empty
(`if policy == POLICY_SINGLETON and last:`), return `last[-1]` without
creating a task or entering the function; otherwise enter the function,
create the task `fresh`, and finalize it through `wrap`. -/
def singletonInvoke (last : List Nat) (fresh : Nat) (freshFinished : Bool) :
    SingletonResult :=
  match last.getLast? with
  | some h => { handle := h, createdNew := false, entered := false, lastAfter := last }
  | none =>
      { handle := fresh, createdNew := true, entered := true,
        lastAfter := wrapLastAfter Policy.singletonPolicy freshFinished last fresh }

/-- C4 (confirmed): while a Singleton task for a key is alive (its entry
is still in the `last` list), every invocation with that key returns the
identical existing promise handle `last[-1]`, creates no new task, does
not re-enter the decorated generator function, and leaves the `last` list
unchanged, so all subsequent invocations keep returning that same handle. -/
theorem c4_singleton_returns_existing (last : List Nat) (h : Nat)
    (fresh : Nat) (freshFinished : Bool) (halive : last.getLast? = some h) :
    singletonInvoke last fresh freshFinished =
      { handle := h, createdNew := false, entered := false, lastAfter := last } := by
  unfold singletonInvoke
  rw [halive]

/-- Witness for the C4 theorem: with the task `5` alive for the key, a new
invocation returns handle `5` and changes nothing. -/
theorem c4_singleton_returns_existing_witness :
    singletonInvoke [5] 9 false =
      { handle := 5, createdNew := false, entered := false, lastAfter := [5] } :=
  c4_singleton_returns_existing [5] 5 9 false rfl

/-- Embedding of a run of consecutive invocations of a
`POLICY_PASS_LAST` coroutine (src/coroutine.py lines 134-138): each
invocation first computes its `last` keyword input as `last[-1]` if the
list is non-empty and `None` otherwise, then creates its task (assumed
still unfinished, i.e. live) which `wrap` appends to the list.  Returns
the sequence of `last` inputs received and the final `last` list. -/
def passLastRun (last : List Nat) : List Nat → List (Option Nat) × List Nat
  | [] => ([], last)
  | t :: ts =>
      let r := passLastRun (wrapLastAfter Policy.passLastPolicy false last t) ts
      (last.getLast? :: r.1, r.2)

theorem wrapLastAfter_passLast (last : List Nat) (t : Nat) :
    wrapLastAfter Policy.passLastPolicy false last t = last ++ [t] := by
  simp [wrapLastAfter]

theorem passLastRun_inputs (last : List Nat) (ts : List Nat) :
    passLastRun last ts =
      (((last.getLast? :: ts.map some).dropLast), last ++ ts) := by
  induction ts generalizing last with
  | nil => simp [passLastRun]
  | cons t ts ih =>
      simp only [passLastRun, wrapLastAfter_passLast, ih, List.map_cons]
      rw [List.getLast?_append]
      simp [List.dropLast_cons_of_ne_nil]

/-- C5 (confirmed): under the PassLast policy every invocation creates a
new task that joins the key's `last` list, and the k-th consecutive live
invocation receives the (k-1)-th task as its `last` input while the first
receives none: starting from an empty list, the received inputs for live
tasks `ts` are `none` followed by the tasks themselves shifted by one. -/
theorem c5_pass_last_chain (ts : List Nat) :
    (passLastRun [] ts).1 = (none :: ts.map some).dropLast ∧
      (passLastRun [] ts).2 = ts := by
  rw [passLastRun_inputs]
  exact ⟨rfl, by simp⟩

/-- One entry of the main-thread wake queue `_thread_notifier_queue`
(src/thread.py line 293): `(callback, args, kwargs, in_progress)`, each
component as an opaque identifier. -/
structure NotifierEntry where
  cb : Nat
  args : Nat
  kwargs : Nat
  ip : Nat
deriving DecidableEq, Repr

/-- Embedding of `_thread_notifier_queue_callback` (src/thread.py lines
291-297): under the queue lock, append the entry at the tail; a wake byte
is written to the pipe exactly when the queue was empty before
(`len(_thread_notifier_queue) == 1` after the append).  Returns the new
queue and whether the pipe was kicked. -/
def queueCallbackEnqueue (q : List NotifierEntry) (e : NotifierEntry) :
    List NotifierEntry × Bool :=
  let q2 := q ++ [e]
  (q2, decide (q2.length = 1))

/-- Queue contents after a sequence of enqueues starting from the empty
queue. -/
def enqueueAll (es : List NotifierEntry) : List NotifierEntry :=
  es.foldl (fun q e => (queueCallbackEnqueue q e).1) []

/-- Embedding of the drain loop of `_thread_notifier_run_queue`
(src/thread.py lines 311-327): while the queue is non-empty, `pop(0)` the
head entry and execute it.  Returns the entries in the order their
callables are executed. -/
def runQueueOrder : List NotifierEntry → List NotifierEntry
  | [] => []
  | e :: rest => e :: runQueueOrder rest

theorem enqueueAll_eq (es : List NotifierEntry) : enqueueAll es = es := by
  have general : ∀ (rest acc : List NotifierEntry),
      rest.foldl (fun q e => (queueCallbackEnqueue q e).1) acc = acc ++ rest := by
    intro rest
    induction rest with
    | nil => intro acc; simp
    | cons e rest ih =>
        intro acc
        rw [List.foldl_cons]
        have hq : (queueCallbackEnqueue acc e).1 = acc ++ [e] := rfl
        rw [hq, ih, List.append_assoc]
        rfl
  simpa using general es []

theorem runQueueOrder_eq (q : List NotifierEntry) : runQueueOrder q = q := by
  induction q with
  | nil => rfl
  | cons e rest ih => rw [runQueueOrder, ih]

/-- C6 (confirmed): the wake queue is FIFO: after any sequence of
enqueues, the drain loop pops and runs the entries exactly in insertion
order, so the n-th callable executed is the n-th one enqueued; in
particular if entry `a` was enqueued before entry `b`, then `a`'s
callable runs before `b`'s. -/
theorem c6_wake_queue_fifo (es : List NotifierEntry) :
    runQueueOrder (enqueueAll es) = es := by
  rw [enqueueAll_eq, runQueueOrder_eq]

/-- A job queued on a `_JobServer`: its priority and its submission
sequence number (position in submission order, used to state stability). -/
structure Job where
  priority : Int
  seq : Nat
deriving DecidableEq, Repr

/-- Stable insertion into a descending list: the inserted element `j`
passes over strictly greater priorities and stops before the first
element whose priority is at most its own.  Used to define `sortJobs`. -/
def insertJob (j : Job) : List Job → List Job
  | [] => [j]
  | x :: xs => if j.priority < x.priority then x :: insertJob j xs else j :: x :: xs

/-- Stable descending insertion sort.  Python's `list.sort` with the
comparator `-cmp(x.priority, y.priority)` (src/thread.py line 505) is a
stable sort by descending priority; the result of a stable sort is
uniquely determined, and this insertion sort computes exactly that
permutation, so the two agree extensionally. -/
def sortJobs : List Job → List Job
  | [] => []
  | x :: xs => insertJob x (sortJobs xs)

/-- Embedding of `_JobServer.add` (src/thread.py lines 499-507): under
the condition lock, append the job and re-sort the whole list by
descending priority with a stable sort. -/
def jobServerAdd (jobs : List Job) (job : Job) : List Job :=
  sortJobs (jobs ++ [job])

/-- Insertion of the newest element into a descending list: it passes
over greater-or-equal priorities (staying behind earlier submissions of
the same priority) and stops before the first strictly smaller one.
`jobServerAdd` on a sorted queue coincides with this. -/
def appendInsert (j : Job) : List Job → List Job
  | [] => [j]
  | x :: xs => if j.priority > x.priority then j :: x :: xs else x :: appendInsert j xs

/-- The job-queue ordering maintained by the server: strictly descending
priority, and within equal priorities ascending submission order. -/
def JobRel (a b : Job) : Prop :=
  b.priority < a.priority ∨ (a.priority = b.priority ∧ a.seq ≤ b.seq)

/-- Invariant of the server's `jobs` list. -/
def QueueSorted (q : List Job) : Prop := q.Pairwise JobRel

theorem appendInsert_of_gt (j : Job) (q : List Job)
    (hall : ∀ y ∈ q, y.priority < j.priority) :
    appendInsert j q = j :: q := by
  cases q with
  | nil => rfl
  | cons y q2 =>
      have : j.priority > y.priority := hall y (by simp)
      simp [appendInsert, this]

theorem insertJob_of_ge (x : Job) (q : List Job)
    (hall : ∀ y ∈ q, y.priority ≤ x.priority) :
    insertJob x q = x :: q := by
  cases q with
  | nil => rfl
  | cons y q2 =>
      have : ¬ x.priority < y.priority := not_lt.mpr (hall y (by simp))
      simp [insertJob, this]

theorem mem_appendInsert (j y : Job) (q : List Job) :
    y ∈ appendInsert j q ↔ y = j ∨ y ∈ q := by
  induction q with
  | nil => simp [appendInsert]
  | cons x xs ih =>
      by_cases h : j.priority > x.priority
      · simp [appendInsert, h]
      · simp [appendInsert, h, ih]
        tauto

theorem sortJobs_append_singleton (j : Job) (q : List Job)
    (hq : q.Pairwise (fun a b => b.priority ≤ a.priority)) :
    sortJobs (q ++ [j]) = appendInsert j q := by
  induction q with
  | nil => rfl
  | cons x q2 ih =>
      rw [List.pairwise_cons] at hq
      obtain ⟨hx, hq2⟩ := hq
      rw [List.cons_append]
      show insertJob x (sortJobs (q2 ++ [j])) = appendInsert j (x :: q2)
      rw [ih hq2]
      by_cases hj : j.priority > x.priority
      · have h1 : appendInsert j q2 = j :: q2 :=
          appendInsert_of_gt j q2 (fun y hy => lt_of_le_of_lt (hx y hy) hj)
        have h2 : insertJob x q2 = x :: q2 := insertJob_of_ge x q2 hx
        simp [h1, appendInsert, hj, insertJob, h2]
      · have hle : j.priority ≤ x.priority := not_lt.mp hj
        have hgoal : insertJob x (appendInsert j q2) = x :: appendInsert j q2 := by
          cases q2 with
          | nil =>
              show insertJob x [j] = x :: [j]
              simp [insertJob, not_lt.mpr hle]
          | cons y q3 =>
              have hy : y.priority ≤ x.priority := hx y (by simp)
              by_cases hjy : j.priority > y.priority
              · simp [appendInsert, hjy, insertJob, not_lt.mpr hle]
              · simp [appendInsert, hjy, insertJob, not_lt.mpr hy]
        simp [appendInsert, hj, hgoal]

theorem queueSorted_priorities {q : List Job} (h : QueueSorted q) :
    q.Pairwise (fun a b => b.priority ≤ a.priority) := by
  refine h.imp ?_
  intro a b hr
  rcases hr with hlt | ⟨heq, _⟩
  · exact le_of_lt hlt
  · exact le_of_eq heq.symm

theorem jobRel_priority {a b : Job} (h : JobRel a b) : b.priority ≤ a.priority := by
  rcases h with hlt | ⟨heq, _⟩
  · exact le_of_lt hlt
  · exact le_of_eq heq.symm

theorem queueSorted_appendInsert (j : Job) :
    ∀ (q : List Job), QueueSorted q → (∀ y ∈ q, y.seq < j.seq) →
      QueueSorted (appendInsert j q) := by
  intro q
  induction q with
  | nil =>
      intro _ _
      show QueueSorted [j]
      simp [QueueSorted]
  | cons x q2 ih =>
      intro hq hseq
      rw [QueueSorted, List.pairwise_cons] at hq
      obtain ⟨hx, hq2⟩ := hq
      by_cases hj : j.priority > x.priority
      · have he : appendInsert j (x :: q2) = j :: x :: q2 := by
          simp [appendInsert, hj]
        rw [he]
        refine List.Pairwise.cons ?_ (List.Pairwise.cons hx hq2)
        intro y hy
        rcases List.mem_cons.mp hy with rfl | hy2
        · exact Or.inl hj
        · exact Or.inl (lt_of_le_of_lt (jobRel_priority (hx y hy2)) hj)
      · have he : appendInsert j (x :: q2) = x :: appendInsert j q2 := by
          simp [appendInsert, hj]
        rw [he]
        refine List.Pairwise.cons ?_
          (ih hq2 (fun y hy => hseq y (List.mem_cons_of_mem x hy)))
        intro y hy
        rcases (mem_appendInsert j y q2).mp hy with rfl | hy2
        · rcases lt_or_eq_of_le (not_lt.mp hj) with hlt | heq
          · exact Or.inl hlt
          · exact Or.inr ⟨heq.symm, le_of_lt (hseq x (by simp))⟩
        · exact hx y hy2

theorem mem_jobServerAdd (j y : Job) (q : List Job) (hq : QueueSorted q) :
    y ∈ jobServerAdd q j ↔ y = j ∨ y ∈ q := by
  rw [jobServerAdd, sortJobs_append_singleton j q (queueSorted_priorities hq),
    mem_appendInsert]

theorem queueSorted_jobServerAdd (j : Job) (q : List Job)
    (hq : QueueSorted q) (hseq : ∀ y ∈ q, y.seq < j.seq) :
    QueueSorted (jobServerAdd q j) := by
  rw [jobServerAdd, sortJobs_append_singleton j q (queueSorted_priorities hq)]
  exact queueSorted_appendInsert j q hq hseq

theorem queueSorted_tail (q : List Job) (hq : QueueSorted q) :
    QueueSorted q.tail := by
  cases q with
  | nil => exact hq
  | cons x q2 => exact ((List.pairwise_cons).mp hq).2

/-- Operations arriving at a `_JobServer`: a submission with a priority
(`add`, src/thread.py lines 499-507, called from
`NamedThreadCallback._create_job`), or the worker loop popping the head
job (`self.jobs.pop(0)`, src/thread.py line 533). -/
inductive JobOp where
  | submit (p : Int)
  | popJob
deriving DecidableEq, Repr

/-- Embedding of the evolution of the server's `jobs` list under a
sequence of submissions and pops, together with the submission counter
that numbers the jobs in submission order. -/
def applyJobOps : List JobOp → List Job × Nat → List Job × Nat
  | [], s => s
  | JobOp.submit p :: ops, s =>
      applyJobOps ops (jobServerAdd s.1 { priority := p, seq := s.2 }, s.2 + 1)
  | JobOp.popJob :: ops, s => applyJobOps ops (s.1.tail, s.2)

/-- The server's `jobs` list and submission counter after a sequence of
operations starting from the freshly constructed server (empty list). -/
def jobQueueState (ops : List JobOp) : List Job × Nat := applyJobOps ops ([], 0)

/-- Reachability invariant of the server state: the queue is sorted by
descending priority with equal priorities in submission order, and every
queued job was numbered by the submission counter. -/
def QueueOk (s : List Job × Nat) : Prop :=
  QueueSorted s.1 ∧ ∀ y ∈ s.1, y.seq < s.2

theorem queueOk_applyJobOps (ops : List JobOp) :
    ∀ s, QueueOk s → QueueOk (applyJobOps ops s) := by
  induction ops with
  | nil => intro s hs; exact hs
  | cons op ops ih =>
      intro s hs
      obtain ⟨hsort, hseq⟩ := hs
      cases op with
      | submit p =>
          apply ih
          constructor
          · exact queueSorted_jobServerAdd _ _ hsort hseq
          · intro y hy
            rcases (mem_jobServerAdd _ y s.1 hsort).mp hy with rfl | hy2
            · exact Nat.lt_succ_self s.2
            · exact Nat.lt_succ_of_lt (hseq y hy2)
      | popJob =>
          apply ih
          constructor
          · exact queueSorted_tail _ hsort
          · intro y hy
            exact hseq y (List.mem_of_mem_tail hy)

/-- The popped head job dominates the queue: no queued job has a higher
priority, and among jobs of its own priority it is the earliest
submitted. -/
def headDominates (q : List Job) (h : Job) : Prop :=
  ∀ x ∈ q, x.priority ≤ h.priority ∧ (x.priority = h.priority → h.seq ≤ x.seq)

/-- C7 (confirmed): after any sequence of job submissions and worker
pops, if the queue is non-empty then the job the worker loop pops next
(the head, `self.jobs.pop(0)`) has the highest priority among the
currently queued jobs, and among queued jobs of equal priority it is the
earliest submitted, so equal-priority jobs execute in submission order. -/
theorem c7_jobserver_pop_priority (ops : List JobOp) (h : Job) (t : List Job)
    (hq : (jobQueueState ops).1 = h :: t) :
    headDominates (jobQueueState ops).1 h := by
  have hok : QueueOk (jobQueueState ops) :=
    queueOk_applyJobOps ops ([], 0) ⟨List.Pairwise.nil, by simp⟩
  obtain ⟨hsort, _⟩ := hok
  rw [hq] at hsort ⊢
  rw [QueueSorted, List.pairwise_cons] at hsort
  obtain ⟨hrel, _⟩ := hsort
  intro x hx
  rcases List.mem_cons.mp hx with rfl | hx2
  · exact ⟨le_refl _, fun _ => le_refl _⟩
  · rcases hrel x hx2 with hlt | ⟨heq, hs⟩
    · exact ⟨le_of_lt hlt, fun hc => ((lt_irrefl _ (hc ▸ hlt)).elim)⟩
    · exact ⟨le_of_eq heq.symm, fun _ => hs⟩

/-- Witness for the C7 theorem: submitting priorities 1, 2, 2 yields the
queue `[(2, seq 1), (2, seq 2), (1, seq 0)]`, whose head is the earliest
submitted of the highest-priority jobs, and it dominates the queue. -/
theorem c7_jobserver_pop_priority_witness :
    (jobQueueState [JobOp.submit 1, JobOp.submit 2, JobOp.submit 2]).1 =
        [{ priority := 2, seq := 1 }, { priority := 2, seq := 2 },
         { priority := 1, seq := 0 }] ∧
      headDominates
        (jobQueueState [JobOp.submit 1, JobOp.submit 2, JobOp.submit 2]).1
        { priority := 2, seq := 1 } :=
  ⟨by decide,
   c7_jobserver_pop_priority [JobOp.submit 1, JobOp.submit 2, JobOp.submit 2]
     { priority := 2, seq := 1 }
     [{ priority := 2, seq := 2 }, { priority := 1, seq := 0 }] (by decide)⟩

/-- Kind of a lock object: `threading.RLock` (re-entrant) or a primitive
`thread.LockType` lock (not re-entrant). -/
inductive LockKind where
  | rlock
  | plainLock
deriving DecidableEq, Repr

/-- Whether a lock of this kind is re-entrant. -/
def reentrant : LockKind → Bool
  | LockKind.rlock => true
  | LockKind.plainLock => false

/-- Argument given to the `synchronized` constructor: no object (class
decorator use), a lock object directly (the `isinstance(obj,
(threading._RLock, LockType))` branch accepts both kinds), or a plain
object carrying an optional pre-existing `_kaa_synchronized_lock` slot. -/
inductive SyncTarget where
  | noObj
  | suppliedLock (k : LockKind)
  | plainObject (slot : Option LockKind)
deriving DecidableEq, Repr

/-- Embedding of `synchronized.__init__` (src/thread.py lines 149-165):
with no object, `self._lock` is `None`; a supplied lock object is stored
as-is, whatever its kind; any other object gets a fresh
`threading.RLock` attached as `_kaa_synchronized_lock` on first use and
that slot is stored. -/
def synchronizedSelfLock : SyncTarget → Option LockKind
  | SyncTarget.noObj => none
  | SyncTarget.suppliedLock k => some k
  | SyncTarget.plainObject (some k) => some k
  | SyncTarget.plainObject none => some LockKind.rlock

/-- Embedding of the lock resolution in the wrapper `call` produced by
`synchronized.__call__` (src/thread.py lines 183-204): use `self._lock`
when set; otherwise use the `synchronized_lock` slot of the decorated
function's per-argument `DecoratorDataStore` (which attaches the lock to
the method receiver for methods), creating a fresh `threading.RLock`
there when the slot is empty. -/
def synchronizedCallLock (selfLock : Option LockKind)
    (storeLock : Option LockKind) : LockKind :=
  match selfLock with
  | some k => k
  | none =>
      match storeLock with
      | some k => k
      | none => LockKind.rlock

/-- C8 (amended): every lock that `synchronized` itself creates is
re-entrant: the lock attached to a non-lock object target, the
per-instance slot attached to a method receiver on first use, and the
lock created in a plain function's per-argument data store (so any store
slot previously filled by this code is re-entrant too); but a lock object
supplied directly at construction is used as-is, so that case is
re-entrant only when the caller supplies a re-entrant lock. -/
theorem c8_created_locks_reentrant (slot : Option LockKind) (k : LockKind) :
    synchronizedSelfLock (SyncTarget.plainObject none) = some LockKind.rlock ∧
    synchronizedCallLock none none = LockKind.rlock ∧
    reentrant (synchronizedCallLock none none) = true ∧
    (slot = none ∨ slot = some LockKind.rlock →
      reentrant (synchronizedCallLock none slot) = true) ∧
    synchronizedSelfLock (SyncTarget.suppliedLock k) = some k := by
  refine ⟨rfl, rfl, rfl, ?_, rfl⟩
  rintro (rfl | rfl) <;> rfl

/-- Witness for the amended C8 theorem at a concrete slot and lock kind. -/
theorem c8_created_locks_reentrant_witness :
    reentrant (synchronizedCallLock none (some LockKind.rlock)) = true :=
  (c8_created_locks_reentrant (some LockKind.rlock) LockKind.rlock).2.2.2.1
    (Or.inr rfl)

/-- C8 counterexample: constructing `synchronized` with a primitive
non-re-entrant `thread.LockType` lock stores and uses that lock as-is,
so the lock guarding the scope is not re-entrant, contrary to the claim
that the lock supplied at construction is always re-entrant. -/
theorem c8_counterexample :
    synchronizedSelfLock (SyncTarget.suppliedLock LockKind.plainLock) =
        some LockKind.plainLock ∧
      reentrant
        (synchronizedCallLock
          (synchronizedSelfLock (SyncTarget.suppliedLock LockKind.plainLock))
          none) = false := by
  refine ⟨?_, ?_⟩ <;> decide

/-- State of a prerequisite `InProgress` as read by `_process`: the
stored exception `self._exception` (set when the promise failed), the
unhandled-exception marker `self._unhandled_exception`, and the stored
result `self._result`. -/
structure PrereqIP where
  exceptionVal : Option Nat
  unhandled : Option Nat
  resultVal : Nat
deriving DecidableEq, Repr

/-- What `_process` does to the generator: the very first advance calls
`generator.next()`; with a finished prerequisite it calls
`generator.send(result)`; with a failed prerequisite it calls
`generator.throw(*exception)`. -/
inductive ProcessAction where
  | firstNext
  | sendValue (v : Nat)
  | throwInto (e : Nat)
deriving DecidableEq, Repr

/-- Embedding of `_process` (src/coroutine.py lines 81-90): with no
prerequisite, advance with `next()`; with a prerequisite whose
`_exception` is set, first clear its `_unhandled_exception` marker and
then throw the stored error into the generator; otherwise send the
stored result.  Returns the action taken and the updated prerequisite
state. -/
def processAdvance : Option PrereqIP → ProcessAction × Option PrereqIP
  | none => (ProcessAction.firstNext, none)
  | some ip =>
      match ip.exceptionVal with
      | some e => (ProcessAction.throwInto e, some { ip with unhandled := none })
      | none => (ProcessAction.sendValue ip.resultVal, some ip)

/-- Modelled from the spec: the unhandled-failure diagnostic of the
promise model (`async.py` is not part of the sources; spec section 4.1:
a failure is reported as unhandled when the promise is reclaimed with the
marker still set). -/
def reportsUnhandled (ip : PrereqIP) : Bool := ip.unhandled.isSome

/-- C9 (confirmed): whenever a task's prerequisite promise has failed,
`_process` clears the prerequisite's unhandled-exception marker and
throws the stored error into the generator, so a failure consumed by an
awaiting task can never be reported as an unhandled failed promise. -/
theorem c9_unhandled_cleared (ip : PrereqIP) (e : Nat)
    (hfail : ip.exceptionVal = some e) :
    processAdvance (some ip) =
        (ProcessAction.throwInto e, some { ip with unhandled := none }) ∧
      ∀ ip2, (processAdvance (some ip)).2 = some ip2 →
        reportsUnhandled ip2 = false := by
  refine ⟨?_, ?_⟩
  · simp [processAdvance, hfail]
  · intro ip2 h2
    simp [processAdvance, hfail, reportsUnhandled] at h2 ⊢
    simp [← h2]

/-- Witness for the C9 theorem at a concrete failed prerequisite whose
marker was still set. -/
theorem c9_unhandled_cleared_witness :
    processAdvance (some { exceptionVal := some 4, unhandled := some 4,
                           resultVal := 0 }) =
      (ProcessAction.throwInto 4,
       some { exceptionVal := some 4, unhandled := none, resultVal := 0 }) :=
  (c9_unhandled_cleared
    { exceptionVal := some 4, unhandled := some 4, resultVal := 0 } 4 rfl).1

/-- State of a `ThreadInProgress` job: whether `self._callback` is still
set, and the state of its promise. -/
structure ThreadJob where
  callbackPresent : Bool
  promise : PromiseState
deriving DecidableEq, Repr

/-- Effect of one `ThreadInProgress.__call__` execution: either the early
`return None` without touching the callback, or an actual run of the
user callback (recording whether it returned normally). -/
inductive ThreadCallEffect where
  | returnedNone
  | ranCallback (ok : Bool)
deriving DecidableEq, Repr

/-- Embedding of `ThreadInProgress.__call__` (src/thread.py lines
368-389): when `self._callback is None`, return `None` at once — the
user callback is not invoked and the promise is untouched; otherwise run
the callback, settle the promise (via `MainThreadCallback(self.finish)`
or `self.throw`, here collapsed to the eventual settlement), and clear
`self._callback`. -/
def threadJobCall (s : ThreadJob) (cbSucceeds : Bool) (v : Nat) :
    ThreadJob × ThreadCallEffect :=
  if s.callbackPresent = false then (s, ThreadCallEffect.returnedNone)
  else
    ({ callbackPresent := false,
       promise := if cbSucceeds then PromiseState.finishedWith (some v)
         else PromiseState.failedWith v },
     ThreadCallEffect.ranCallback cbSucceeds)

/-- Embedding of `ThreadInProgress.stop` (src/thread.py lines 399-403):
drop the callback. -/
def threadJobStop (s : ThreadJob) : ThreadJob := { s with callbackPresent := false }

/-- Embedding of `ThreadInProgress.active` (src/thread.py lines
392-396). -/
def threadJobActive (s : ThreadJob) : Bool := s.callbackPresent

/-- C10 (confirmed): if `stop()` runs before the worker thread executes a
`ThreadInProgress` job, then `active()` is `False` from that point on,
the later execution returns `None` without invoking the user callback,
and the job's promise is never settled: it stays pending afterwards, and
`active()` remains `False`. -/
theorem c10_stop_before_execution (s : ThreadJob) (cbSucceeds : Bool) (v : Nat)
    (hp : s.promise = PromiseState.pending) :
    threadJobActive (threadJobStop s) = false ∧
    threadJobCall (threadJobStop s) cbSucceeds v =
      (threadJobStop s, ThreadCallEffect.returnedNone) ∧
    (threadJobCall (threadJobStop s) cbSucceeds v).1.promise =
      PromiseState.pending ∧
    threadJobActive (threadJobCall (threadJobStop s) cbSucceeds v).1 = false := by
  refine ⟨rfl, rfl, ?_, rfl⟩
  show (threadJobStop s).promise = PromiseState.pending
  exact hp

/-- Witness for the C10 theorem at a concrete pending job. -/
theorem c10_stop_before_execution_witness :
    (threadJobCall
        (threadJobStop { callbackPresent := true, promise := PromiseState.pending })
        true 9).1.promise = PromiseState.pending :=
  (c10_stop_before_execution
    { callbackPresent := true, promise := PromiseState.pending } true 9 rfl).2.2.1

end KaaBase

